import Mathlib

set_option maxHeartbeats 1000000
set_option linter.unusedVariables false

/-!
Verification of the pdf-to-images page export pipeline (`src/pdf_to_images.py`)
against its specification: range resolution, the image transform chain, and the
top-level conversion orchestration with its validation, authentication,
overwrite and output-directory behaviour.
-/

/-- Python `repr` of an optional integer argument, as interpolated into the
range error message (`None` for an absent argument). -/
def optIntStr : Option Int → String
  | none => "None"
  | some v => toString v

/-- Embedding of `_validate_range` (source lines 20-26): converts optional
1-based `start`/`end` to 0-based inclusive indices.  Python truthiness:
`not start` is true when the argument is `None` or `0`, so a `0` value takes
the "absent" branch. -/
def validate_range (start : Option Int) (end_ : Option Int) (n_pages : Int) :
    Except String (Int × Int) :=
  let first : Int :=
    match start with
    | none => 0
    | some s => if s = 0 then 0 else max 0 (s - 1)
  let last : Int :=
    match end_ with
    | none => n_pages - 1
    | some e => if e = 0 then n_pages - 1 else min (n_pages - 1) (e - 1)
  if first > last then
    Except.error ("Invalid range: start=" ++ optIntStr start ++ ", end=" ++
      optIntStr end_ ++ " for " ++ toString n_pages ++ " pages.")
  else
    Except.ok (first, last)

/-- The resolved first index as the specification states it: `0` when `start`
is absent, `max 0 (start - 1)` when present. -/
def specFirst (start : Option Int) : Int :=
  match start with
  | none => 0
  | some s => max 0 (s - 1)

/-- The resolved last index as the specification states it: `n - 1` when `end`
is absent, `min (n - 1) (end - 1)` when present. -/
def specLast (end_ : Option Int) (n_pages : Int) : Int :=
  match end_ with
  | none => n_pages - 1
  | some e => min (n_pages - 1) (e - 1)

theorem validate_range_reduce (start end_ : Option Int) (n : Int)
    (hs : ∀ s, start = some s → s ≠ 0) (he : ∀ e, end_ = some e → e ≠ 0) :
    validate_range start end_ n =
      if specLast end_ n < specFirst start then
        Except.error ("Invalid range: start=" ++ optIntStr start ++ ", end=" ++
          optIntStr end_ ++ " for " ++ toString n ++ " pages.")
      else
        Except.ok (specFirst start, specLast end_ n) := by
  rcases start with _ | s <;> rcases end_ with _ | e <;>
      simp only [validate_range, specFirst, specLast, gt_iff_lt]
  · rw [if_neg (he e rfl)]
  · rw [if_neg (hs s rfl)]
  · rw [if_neg (hs s rfl), if_neg (he e rfl)]

/-- Claim C1: for page count n ≥ 1 and optional 1-based start/end, range
resolution yields first = 0 (absent) or max 0 (start-1) (present) and
last = n-1 (absent) or min (n-1) (end-1) (present); it raises an
ArgumentError-class (ValueError) error exactly when first > last after this
clamping, and otherwise 0 ≤ first ≤ last ≤ n-1. -/
theorem validate_range_spec (start end_ : Option Int) (n : Int)
    (hn : 1 ≤ n)
    (hs : ∀ s, start = some s → 1 ≤ s)
    (he : ∀ e, end_ = some e → 1 ≤ e) :
    (specFirst start ≤ specLast end_ n →
      validate_range start end_ n = Except.ok (specFirst start, specLast end_ n) ∧
      0 ≤ specFirst start ∧ specLast end_ n ≤ n - 1) ∧
    (specLast end_ n < specFirst start →
      ∃ msg, validate_range start end_ n = Except.error msg) := by
  have hred := validate_range_reduce start end_ n
    (fun s h => by have := hs s h; omega) (fun e h => by have := he e h; omega)
  constructor
  · intro hle
    refine ⟨?_, ?_, ?_⟩
    · rw [hred, if_neg (by omega)]
    · rcases start with _ | s <;> simp only [specFirst] <;> omega
    · rcases end_ with _ | e <;> simp only [specLast] <;> omega
  · intro hlt
    exact ⟨_, by rw [hred, if_pos hlt]⟩

/-- Claim C1 witness: a concrete resolved range. -/
theorem validate_range_spec_witness :
    validate_range (some 2) (some 3) 5 =
      Except.ok (specFirst (some 2), specLast (some 3) 5) ∧
    0 ≤ specFirst (some 2) ∧ specLast (some 3) 5 ≤ 5 - 1 :=
  (validate_range_spec (some 2) (some 3) 5 (by omega)
    (fun s h => by injection h with h; omega)
    (fun e h => by injection h with h; omega)).1 (by decide)

/-- Claim C8: `end = 0` is treated like an absent end (Python falsiness of
`not end`), so the resolved last page is n-1 rather than a clamped -1: the
resolved pair with end = 0 agrees with the absent-end pair, and with start
absent and end = 0 the full range (0, n-1) resolves successfully. -/
theorem end_zero_full_range (start : Option Int) (n : Int) (hn : 1 ≤ n) :
    (∀ p, validate_range start (some 0) n = Except.ok p ↔
      validate_range start none n = Except.ok p) ∧
    validate_range none (some 0) n = Except.ok (0, n - 1) := by
  constructor
  · intro p
    simp only [validate_range, reduceIte]
    split
    · simp
    · exact Iff.rfl
  · simp only [validate_range, reduceIte]
    rw [if_neg (by omega)]

/-- Claim C8 witness: a three-page document with end = 0 resolves to (0, 2). -/
theorem end_zero_full_range_witness :
    validate_range none (some 0) 3 = Except.ok (0, 3 - 1) :=
  (end_zero_full_range none 3 (by omega)).2

/-- Pillow colour modes arising in the pipeline (engine output is RGB or RGBA,
grayscale conversion produces L). -/
inductive Mode where
  | RGB
  | RGBA
  | L
deriving DecidableEq

/-- Channel count of a colour mode. -/
def Mode.channels : Mode → Nat
  | .RGB => 3
  | .RGBA => 4
  | .L => 1

/-- In-memory raster image: colour mode, dimensions, and row-major pixels, each
pixel a list of channel values (models a Pillow `Image`). -/
structure Img where
  mode : Mode
  width : Nat
  height : Nat
  pixels : List (List Nat)
deriving DecidableEq

/-- An image carries an alpha channel exactly in RGBA mode. -/
def hasAlpha (img : Img) : Bool := img.mode == Mode.RGBA

/-- Blend one source channel `c` over an opaque background channel `bgc` at
source alpha `a`, rounding to nearest (models Pillow alpha compositing over an
opaque background). -/
def blendChannel (c bgc a : Nat) : Nat := (c * a + bgc * (255 - a) + 127) / 255

/-- Composite one RGBA pixel over an opaque background RGBA pixel. -/
def compositePixel (bgp p : List Nat) : List Nat :=
  match p, bgp with
  | [r, g, b, a], [br, bg, bb, _] =>
      [blendChannel r br a, blendChannel g bg a, blendChannel b bb a, 255]
  | _, _ => p

/-- Models `PIL.Image.new("RGBA", size, (255, 255, 255, 255))`: an opaque
white RGBA image of the given size. -/
def newWhiteRGBA (w h : Nat) : Img :=
  ⟨Mode.RGBA, w, h, List.replicate (w * h) [255, 255, 255, 255]⟩

/-- Models `PIL.Image.alpha_composite(bg, img)` for an opaque background. -/
def alpha_composite (bg img : Img) : Img :=
  { mode := Mode.RGBA, width := img.width, height := img.height,
    pixels := (bg.pixels.zip img.pixels).map (fun bp => compositePixel bp.1 bp.2) }

/-- ITU-R 601-2 luma of one RGB(A) pixel (the perceptual weighting used by
Pillow `convert("L")`). -/
def lumaPixel (p : List Nat) : List Nat :=
  match p with
  | r :: g :: b :: _ => [(r * 299 + g * 587 + b * 114) / 1000]
  | _ => p

/-- Replicate a single-channel pixel into three channels. -/
def expandGray (p : List Nat) : List Nat :=
  match p with
  | [v] => [v, v, v]
  | q => q

/-- Models Pillow `convert("RGB")`: RGBA drops alpha, L replicates the single
channel, RGB is returned unchanged. -/
def convertRGB (img : Img) : Img :=
  match img.mode with
  | Mode.RGB => img
  | Mode.RGBA =>
      { img with mode := Mode.RGB, pixels := img.pixels.map (fun p => p.take 3) }
  | Mode.L =>
      { img with mode := Mode.RGB, pixels := img.pixels.map expandGray }

/-- Models Pillow `convert("L")`: luminance conversion to a single channel. -/
def convertL (img : Img) : Img :=
  match img.mode with
  | Mode.L => img
  | _ => { img with mode := Mode.L, pixels := img.pixels.map lumaPixel }

/-- Embedding of `_flatten_to_rgb` (source lines 35-41): RGBA images are
composited over an opaque white background of identical size and converted to
RGB; other non-RGB modes are converted to RGB; RGB images pass through. -/
def flatten_to_rgb (img : Img) : Img :=
  if img.mode = Mode.RGBA then
    convertRGB (alpha_composite (newWhiteRGBA img.width img.height) img)
  else if img.mode ≠ Mode.RGB then
    convertRGB img
  else
    img

/-- Embedding of `_maybe_grayscale` (source lines 44-45). -/
def maybe_grayscale (img : Img) (grayscale : Bool) : Img :=
  if grayscale then convertL img else img

/-- Resampling to the given size with nearest-neighbour pixel lookup (stand-in
for the external LANCZOS kernel; the pipeline's claims depend only on the
resulting dimensions and mode). -/
def resample (img : Img) (w h : Nat) : Img :=
  { mode := img.mode, width := w, height := h,
    pixels := (List.range (w * h)).map (fun k =>
      img.pixels.getD ((k / w) * img.height / h * img.width +
        (k % w) * img.width / w) []) }

/-- Models Pillow `Image.thumbnail((m, m), LANCZOS)`: shrink preserving aspect
ratio so the image fits in an m-by-m box; the larger side becomes m and the
other side is rounded to nearest with a floor of one pixel. -/
def thumbnail (img : Img) (m : Int) : Img :=
  if img.width ≤ img.height then
    resample img (max 1 ((2 * img.width * m.toNat + img.height) / (2 * img.height))) m.toNat
  else
    resample img m.toNat (max 1 ((2 * img.height * m.toNat + img.width) / (2 * img.width)))

/-- Embedding of `_maybe_downscale` (source lines 48-51).  Python truthiness:
`max_dim` of `None` or `0` skips the step; otherwise the image is shrunk only
when its larger dimension exceeds `max_dim`. -/
def maybe_downscale (img : Img) (max_dim : Option Int) : Img :=
  match max_dim with
  | none => img
  | some m =>
      if m ≠ 0 ∧ m < ((max img.width img.height : Nat) : Int) then thumbnail img m
      else img

/-- The per-page transform chain (source lines 126-129): alpha flattening for
formats without transparency support, then optional grayscale, then optional
downscale, in that fixed order. -/
def transform_chain (fmt : String) (grayscale : Bool) (max_dim : Option Int)
    (img : Img) : Img :=
  maybe_downscale
    (maybe_grayscale (if fmt = "jpg" ∨ fmt = "webp" then flatten_to_rgb img else img)
      grayscale)
    max_dim

theorem convertRGB_mode (img : Img) : (convertRGB img).mode = Mode.RGB := by
  rcases img with ⟨m, w, h, px⟩
  cases m <;> rfl

theorem convertL_mode (img : Img) : (convertL img).mode = Mode.L := by
  rcases img with ⟨m, w, h, px⟩
  cases m <;> rfl

theorem flatten_mode (img : Img) : (flatten_to_rgb img).mode = Mode.RGB := by
  unfold flatten_to_rgb
  by_cases h : img.mode = Mode.RGBA
  · rw [if_pos h]
    exact convertRGB_mode _
  · rw [if_neg h]
    by_cases h2 : img.mode = Mode.RGB
    · rw [if_neg (not_not_intro h2)]
      exact h2
    · rw [if_pos h2]
      exact convertRGB_mode _

theorem flatten_fix (img : Img) (h : img.mode = Mode.RGB) : flatten_to_rgb img = img := by
  unfold flatten_to_rgb
  rw [h]
  simp

theorem thumbnail_mode (img : Img) (m : Int) : (thumbnail img m).mode = img.mode := by
  unfold thumbnail
  split <;> rfl

theorem maybe_downscale_mode (img : Img) (md : Option Int) :
    (maybe_downscale img md).mode = img.mode := by
  cases md with
  | none => rfl
  | some m =>
      simp only [maybe_downscale]
      split
      · exact thumbnail_mode img m
      · rfl

/-- Claim C10: alpha flattening always yields an RGB (3-channel) image, returns
RGB images unchanged, and is therefore idempotent. -/
theorem flatten_rgb_idempotent (img : Img) :
    (flatten_to_rgb img).mode = Mode.RGB ∧
    (img.mode = Mode.RGB → flatten_to_rgb img = img) ∧
    flatten_to_rgb (flatten_to_rgb img) = flatten_to_rgb img :=
  ⟨flatten_mode img, fun h => flatten_fix img h, flatten_fix _ (flatten_mode img)⟩

/-- Claim C10 witness: flattening a concrete RGB image returns it unchanged. -/
theorem flatten_rgb_idempotent_witness :
    (Img.mk Mode.RGB 1 1 [[1, 2, 3]]).mode = Mode.RGB ∧
    flatten_to_rgb (Img.mk Mode.RGB 1 1 [[1, 2, 3]]) = Img.mk Mode.RGB 1 1 [[1, 2, 3]] :=
  ⟨rfl, (flatten_rgb_idempotent (Img.mk Mode.RGB 1 1 [[1, 2, 3]])).2.1 rfl⟩

/-- Claim C2: for an RGBA source and a jpg or webp target with grayscale
requested, the chain flattens first and desaturates second: the result is the
luma conversion of the white-composited RGB image (never the reverse order),
lands in single-channel L mode, and carries no alpha channel. -/
theorem transform_flatten_before_grayscale (img : Img) (fmt : String) (md : Option Int)
    (hm : img.mode = Mode.RGBA) (hf : fmt = "jpg" ∨ fmt = "webp") :
    transform_chain fmt true md img =
      maybe_downscale (convertL (convertRGB (alpha_composite
        (newWhiteRGBA img.width img.height) img))) md ∧
    (transform_chain fmt true md img).mode = Mode.L ∧
    Mode.channels (transform_chain fmt true md img).mode = 1 ∧
    hasAlpha (transform_chain fmt true md img) = false := by
  have hchain : transform_chain fmt true md img =
      maybe_downscale (convertL (convertRGB (alpha_composite
        (newWhiteRGBA img.width img.height) img))) md := by
    unfold transform_chain
    rw [if_pos hf]
    unfold maybe_grayscale
    rw [if_pos rfl]
    unfold flatten_to_rgb
    rw [if_pos hm]
  have hmode : (transform_chain fmt true md img).mode = Mode.L := by
    rw [hchain, maybe_downscale_mode, convertL_mode]
  refine ⟨hchain, hmode, ?_, ?_⟩
  · rw [hmode]
    rfl
  · unfold hasAlpha
    rw [hmode]
    rfl

/-- Claim C2 witness: a concrete 1-by-1 RGBA image through the jpg chain. -/
theorem transform_flatten_before_grayscale_witness :
    (Img.mk Mode.RGBA 1 1 [[10, 20, 30, 128]]).mode = Mode.RGBA ∧
    transform_chain "jpg" true none (Img.mk Mode.RGBA 1 1 [[10, 20, 30, 128]]) =
      maybe_downscale (convertL (convertRGB (alpha_composite (newWhiteRGBA 1 1)
        (Img.mk Mode.RGBA 1 1 [[10, 20, 30, 128]])))) none ∧
    (transform_chain "jpg" true none (Img.mk Mode.RGBA 1 1 [[10, 20, 30, 128]])).mode =
      Mode.L :=
  ⟨rfl,
    (transform_flatten_before_grayscale _ "jpg" none rfl (Or.inl rfl)).1,
    (transform_flatten_before_grayscale _ "jpg" none rfl (Or.inl rfl)).2.1⟩

theorem resample_width (img : Img) (w h : Nat) : (resample img w h).width = w := rfl

theorem resample_height (img : Img) (w h : Nat) : (resample img w h).height = h := rfl

theorem round_side_bounds (w h mN : Nat) (hw : 1 ≤ w) (hh : 1 ≤ h) (hmN : 1 ≤ mN)
    (hwh : w ≤ h) (hmh : mN < h) :
    (2 * w * mN + h) / (2 * h) ≤ mN ∧
    (2 * w * mN + h) / (2 * h) ≤ w ∧
    ((mN : Int) * w - (h : Int) * (max 1 ((2 * w * mN + h) / (2 * h)))).natAbs ≤ h ∧
    (((max 1 ((2 * w * mN + h) / (2 * h)) : Nat) : Int) * h - (w : Int) * mN).natAbs ≤ h := by
  have h2h : 0 < 2 * h := by omega
  have hq_mN : (2 * w * mN + h) / (2 * h) ≤ mN := by
    have hmul : 2 * w * mN ≤ 2 * h * mN := Nat.mul_le_mul_right mN (by omega)
    have hkey : 2 * w * mN + h < (mN + 1) * (2 * h) := by nlinarith
    have hx := (Nat.div_lt_iff_lt_mul h2h).mpr hkey
    omega
  have hq_w : (2 * w * mN + h) / (2 * h) ≤ w := by
    have hmul : 2 * w * (mN + 1) ≤ 2 * w * h := Nat.mul_le_mul_left (2 * w) (by omega)
    have hkey : 2 * w * mN + h < (w + 1) * (2 * h) := by nlinarith
    have hx := (Nat.div_lt_iff_lt_mul h2h).mpr hkey
    omega
  have hcenter : (((w * mN : Nat) : Int) -
      ((h * max 1 ((2 * w * mN + h) / (2 * h)) : Nat) : Int)).natAbs ≤ h := by
    rcases Nat.eq_zero_or_pos ((2 * w * mN + h) / (2 * h)) with hq0 | hq1
    · rw [hq0, Nat.max_zero, Nat.mul_one]
      have hlt2 : 2 * w * mN + h < 2 * h := (Nat.div_eq_zero_iff h2h).mp hq0
      rw [mul_assoc] at hlt2
      obtain ⟨Y, hY⟩ : ∃ Y, w * mN = Y := ⟨_, rfl⟩
      rw [hY] at hlt2 ⊢
      omega
    · rw [Nat.max_eq_right hq1]
      have hdm := Nat.div_add_mod (2 * w * mN + h) (2 * h)
      have hr : (2 * w * mN + h) % (2 * h) < 2 * h := Nat.mod_lt _ h2h
      obtain ⟨r, hrdef⟩ : ∃ r, (2 * w * mN + h) % (2 * h) = r := ⟨_, rfl⟩
      obtain ⟨Q, hQ⟩ : ∃ Q, (2 * w * mN + h) / (2 * h) = Q := ⟨_, rfl⟩
      rw [hrdef] at hdm hr
      rw [hQ] at hdm ⊢
      rw [mul_assoc 2 h Q, mul_assoc 2 w mN] at hdm
      obtain ⟨A, hA⟩ : ∃ A, h * Q = A := ⟨_, rfl⟩
      obtain ⟨B, hB⟩ : ∃ B, w * mN = B := ⟨_, rfl⟩
      rw [hA, hB] at hdm
      rw [hA, hB]
      omega
  refine ⟨hq_mN, hq_w, ?_, ?_⟩
  · have hb : (mN : Int) * w - (h : Int) * (max 1 ((2 * w * mN + h) / (2 * h))) =
        ((w * mN : Nat) : Int) - ((h * max 1 ((2 * w * mN + h) / (2 * h)) : Nat) : Int) := by
      push_cast
      ring
    rw [hb]
    exact hcenter
  · have hb : ((max 1 ((2 * w * mN + h) / (2 * h)) : Nat) : Int) * h - (w : Int) * mN =
        -(((w * mN : Nat) : Int) -
          ((h * max 1 ((2 * w * mN + h) / (2 * h)) : Nat) : Int)) := by
      push_cast
      ring
    rw [hb, Int.natAbs_neg]
    exact hcenter

/-- Claim C6: the downscale step is shrink-only.  With both dimensions within a
positive max_dim the image is returned unchanged; when the larger dimension
exceeds max_dim the image is resized without enlarging either side so that its
larger dimension equals max_dim, preserving aspect ratio within rounding. -/
theorem maybe_downscale_shrink_only (img : Img) (m : Int)
    (hm : 1 ≤ m) (hw : 1 ≤ img.width) (hh : 1 ≤ img.height) :
    ((img.width : Int) ≤ m → (img.height : Int) ≤ m →
      maybe_downscale img (some m) = img) ∧
    (m < ((max img.width img.height : Nat) : Int) →
      max (maybe_downscale img (some m)).width (maybe_downscale img (some m)).height
          = m.toNat ∧
      (maybe_downscale img (some m)).width ≤ img.width ∧
      (maybe_downscale img (some m)).height ≤ img.height ∧
      (((maybe_downscale img (some m)).height : Int) * img.width -
          (img.height : Int) * (maybe_downscale img (some m)).width).natAbs
        ≤ max img.width img.height) := by
  constructor
  · intro h1 h2
    simp only [maybe_downscale]
    rw [if_neg]
    rintro ⟨h3, h4⟩
    rcases Nat.le_total img.width img.height with hc | hc
    · rw [max_eq_right hc] at h4
      omega
    · rw [max_eq_left hc] at h4
      omega
  · intro hlt
    have hmN1 : 1 ≤ m.toNat := by omega
    have hred : maybe_downscale img (some m) = thumbnail img m := by
      simp only [maybe_downscale]
      rw [if_pos ⟨by omega, hlt⟩]
    rw [hred]
    by_cases hwh : img.width ≤ img.height
    · have hthumb : thumbnail img m = resample img
          (max 1 ((2 * img.width * m.toNat + img.height) / (2 * img.height))) m.toNat := by
        unfold thumbnail
        rw [if_pos hwh]
      have hmh : m.toNat < img.height := by
        rw [max_eq_right hwh] at hlt
        omega
      obtain ⟨hq_mN, hq_w, habs, -⟩ :=
        round_side_bounds img.width img.height m.toNat hw hh hmN1 hwh hmh
      rw [hthumb, resample_width, resample_height]
      refine ⟨?_, ?_, ?_, ?_⟩
      · exact max_eq_right (max_le hmN1 hq_mN)
      · exact max_le hw hq_w
      · omega
      · rw [max_eq_right hwh]
        exact habs
    · push_neg at hwh
      have hthumb : thumbnail img m = resample img m.toNat
          (max 1 ((2 * img.height * m.toNat + img.width) / (2 * img.width))) := by
        unfold thumbnail
        rw [if_neg (by omega)]
      have hmw : m.toNat < img.width := by
        rw [max_eq_left (by omega : img.height ≤ img.width)] at hlt
        omega
      obtain ⟨hq_mN, hq_h, -, habs⟩ :=
        round_side_bounds img.height img.width m.toNat hh hw hmN1 (by omega) hmw
      rw [hthumb, resample_width, resample_height]
      refine ⟨?_, ?_, ?_, ?_⟩
      · exact max_eq_left (max_le hmN1 hq_mN)
      · omega
      · exact max_le hh hq_h
      · rw [max_eq_left (by omega : img.height ≤ img.width)]
        exact habs

/-- Claim C6 witness: a small image is left unchanged, and a 4-by-2 image with
max_dim = 2 shrinks so its larger side equals 2. -/
theorem maybe_downscale_shrink_only_witness :
    maybe_downscale (Img.mk Mode.RGB 1 1 [[0, 0, 0]]) (some 5) =
      Img.mk Mode.RGB 1 1 [[0, 0, 0]] ∧
    max (maybe_downscale (Img.mk Mode.RGB 4 2 (List.replicate 8 [0, 0, 0])) (some 2)).width
        (maybe_downscale (Img.mk Mode.RGB 4 2 (List.replicate 8 [0, 0, 0])) (some 2)).height =
      (2 : Int).toNat :=
  ⟨(maybe_downscale_shrink_only (Img.mk Mode.RGB 1 1 [[0, 0, 0]]) 5 (by decide) (by decide)
      (by decide)).1 (by decide) (by decide),
    ((maybe_downscale_shrink_only (Img.mk Mode.RGB 4 2 (List.replicate 8 [0, 0, 0])) 2
      (by decide) (by decide) (by decide)).2 (by decide)).1⟩

/-- The set of accepted output format strings (source `VALID_FORMATS`). -/
def VALID_FORMATS : List String := ["jpg", "jpeg", "png", "webp"]

/-- Lowercase a string character-wise (models Python `str.lower` for the ASCII
format names used here). -/
def strLower (s : String) : String := String.mk (s.data.map Char.toLower)

/-- Format normalisation performed first by `pdf_to_images` (lines 86-88):
lowercase, then the "jpeg" alias becomes "jpg". -/
def normFmt (fmt : String) : String :=
  let f := strLower fmt
  if f = "jpeg" then "jpg" else f

/-- Characters of the last `/`-separated component of a path. -/
def lastComponentChars (cs : List Char) : List Char :=
  (cs.reverse.takeWhile (fun c => c != '/')).reverse

/-- Drop a final `.extension` from a file name when one is present (models
`pathlib` suffix removal for ordinary file names). -/
def dropLastExtChars (cs : List Char) : List Char :=
  match cs.reverse.dropWhile (fun c => c != '.') with
  | [] => cs
  | _ :: rest => rest.reverse

/-- Models `Path.stem`: the final path component without its extension. -/
def pathStem (p : String) : String :=
  String.mk (dropLastExtChars (lastComponentChars p.data))

/-- Models `Path.with_suffix("")`: the path with the final component's
extension removed. -/
def withSuffixEmpty (p : String) : String :=
  String.mk ((p.data.take (p.data.length - (lastComponentChars p.data).length)) ++
    dropLastExtChars (lastComponentChars p.data))

/-- Errors raised by the conversion pipeline, tagged by Python exception class. -/
inductive PdfErr where
  | valueError : String → PdfErr
  | fileNotFoundError : String → PdfErr
  | permissionError : String → PdfErr
deriving DecidableEq

/-- Encoded output file contents: the format-specific encoder invocation with
its parameters (models the bytes produced by `img.save`, lines 138-150). -/
inductive FileData where
  | jpegData : Img → Int → FileData
  | pngData : Img → FileData
  | webpData : Img → Int → FileData
  | plainData : Img → FileData
deriving DecidableEq

/-- Filesystem state: regular files with their contents, and existing
directories. -/
structure FS where
  files : List (String × FileData)
  dirs : List String
deriving DecidableEq

/-- An open PDF document as reported by the rendering engine: encryption flag,
password authentication, page count, and per-page rasterisation of a 0-based
page index at a given dpi (`get_pixmap` with `alpha=True`). -/
structure Doc where
  needsPass : Bool
  auth : String → Bool
  nPages : Nat
  render : Int → Nat → Img

/-- The ambient environment: PDF files on disk (with the documents the engine
opens them as) and the filesystem state. -/
structure World where
  pdfs : List (String × Doc)
  fs : FS

/-- Directory creation of `_ensure_outdir` (line 31,
`mkdir(parents=True, exist_ok=True)`): idempotent creation. -/
def ensure_outdir (fs : FS) (out : String) : FS :=
  if fs.dirs.contains out then fs else { fs with dirs := out :: fs.dirs }

/-- Output directory resolution of `_ensure_outdir` (line 30): an explicitly
given directory, or the PDF path with its suffix removed.  Python truthiness:
an empty string counts as absent. -/
def resolveOutDir (pdf_path : String) (out_dir : Option String) : String :=
  match out_dir with
  | none => withSuffixEmpty pdf_path
  | some d => if d = "" then withSuffixEmpty pdf_path else d

/-- Python truthiness of the optional password: `None` and the empty string
both count as "no password supplied". -/
def passTruthy : Option String → Bool
  | none => false
  | some p => p != ""

/-- The document-open authentication step (lines 110-114): encrypted documents
require a truthy password that the engine accepts, checked before range
resolution and rasterisation. -/
def checkAuth (doc : Doc) (password : Option String) : Option PdfErr :=
  if doc.needsPass then
    if passTruthy password = false then
      some (PdfErr.permissionError "PDF is encrypted. Provide --password.")
    else if doc.auth (password.getD "") = false then
      some (PdfErr.permissionError "Incorrect PDF password.")
    else none
  else none

/-- Write a file, replacing any previous contents at that path. -/
def fsWriteFiles (files : List (String × FileData)) (path : String) (d : FileData) :
    List (String × FileData) :=
  (path, d) :: files.filter (fun e => e.1 != path)

/-- Format-specific encoding dispatch (lines 138-150): jpg with quality,
optimize and progressive; png ignoring quality; webp with quality and
method 6; and the unreachable fallback save. -/
def encode (fmt : String) (quality : Int) (img : Img) : FileData :=
  if fmt = "jpg" then FileData.jpegData img quality
  else if fmt = "png" then FileData.pngData img
  else if fmt = "webp" then FileData.webpData img quality
  else FileData.plainData img

/-- Per-page context of the conversion loop. -/
structure PageCtx where
  doc : Doc
  dpi : Int
  fmt : String
  quality : Int
  overwrite : Bool
  outDir : String
  template : String → Nat → String
  stem : String
  grayscale : Bool
  max_dim : Option Int

/-- The resolved output path for 0-based page `i`: the filename template
applied to the stem and the 1-based page number, then the format extension
(lines 131-133). -/
def pageOutFile (ctx : PageCtx) (i : Nat) : String :=
  ctx.outDir ++ "/" ++ ctx.template ctx.stem (i + 1) ++ "." ++ ctx.fmt

/-- One iteration of the page loop (lines 120-150): rasterise, transform,
resolve the output path, apply the overwrite policy, and encode. -/
def writePage (ctx : PageCtx) (files : List (String × FileData)) (i : Nat) :
    List (String × FileData) :=
  let img := transform_chain ctx.fmt ctx.grayscale ctx.max_dim (ctx.doc.render ctx.dpi i)
  if (files.lookup (pageOutFile ctx i)).isSome && !ctx.overwrite then files
  else fsWriteFiles files (pageOutFile ctx i) (encode ctx.fmt ctx.quality img)

/-- The 0-based page indices of the resolved inclusive range
(`range(first, last + 1)`). -/
def pageIndices (first last : Int) : List Nat :=
  (List.range (last + 1 - first).toNat).map (fun k => first.toNat + k)

/-- The conversion pipeline after format normalisation: validation, input
check, output directory creation, document open with authentication, range
resolution, and the page loop (lines 89-152). -/
def pdf_to_images_core (world : World) (pdf_path : String) (out_dir : Option String)
    (dpi quality : Int) (start end_ : Option Int) (fmt : String) (overwrite : Bool)
    (filename_template : String → Nat → String) (password : Option String)
    (grayscale : Bool) (max_dim : Option Int) : Except PdfErr String × FS :=
  if VALID_FORMATS.contains fmt = false then
    (Except.error (PdfErr.valueError ("Unsupported format " ++ fmt ++ ".")), world.fs)
  else if dpi ≤ 0 then
    (Except.error (PdfErr.valueError "dpi must be > 0."), world.fs)
  else if (fmt = "jpg" ∨ fmt = "webp") ∧ ¬(1 ≤ quality ∧ quality ≤ 100) then
    (Except.error (PdfErr.valueError "quality must be in [1, 100]."), world.fs)
  else
    match world.pdfs.lookup pdf_path with
    | none =>
        (Except.error (PdfErr.fileNotFoundError ("PDF not found: " ++ pdf_path)), world.fs)
    | some doc =>
        let out := resolveOutDir pdf_path out_dir
        let fs1 := ensure_outdir world.fs out
        match checkAuth doc password with
        | some e => (Except.error e, fs1)
        | none =>
            match validate_range start end_ (doc.nPages : Int) with
            | Except.error msg => (Except.error (PdfErr.valueError msg), fs1)
            | Except.ok (first, last) =>
                let ctx : PageCtx :=
                  ⟨doc, dpi, fmt, quality, overwrite, out, filename_template,
                    pathStem pdf_path, grayscale, max_dim⟩
                (Except.ok out,
                  { fs1 with
                    files := (pageIndices first last).foldl (writePage ctx) fs1.files })

/-- Embedding of `pdf_to_images` (lines 54-152): normalise the requested
format, then run the pipeline. -/
def pdf_to_images (world : World) (pdf_path : String) (out_dir : Option String)
    (dpi quality : Int) (start end_ : Option Int) (fmt : String) (overwrite : Bool)
    (filename_template : String → Nat → String) (password : Option String)
    (grayscale : Bool) (max_dim : Option Int) : Except PdfErr String × FS :=
  pdf_to_images_core world pdf_path out_dir dpi quality start end_ (normFmt fmt)
    overwrite filename_template password grayscale max_dim

/-- Claim C7: the "jpeg" alias is normalised to "jpg" before validation, and a
conversion requested as "jpeg" behaves identically to one requested as "jpg"
(same validation, extension and encoder path). -/
theorem jpeg_alias_equiv (world : World) (pdf_path : String) (out_dir : Option String)
    (dpi quality : Int) (start end_ : Option Int) (overwrite : Bool)
    (filename_template : String → Nat → String) (password : Option String)
    (grayscale : Bool) (max_dim : Option Int) :
    pdf_to_images world pdf_path out_dir dpi quality start end_ "jpeg" overwrite
        filename_template password grayscale max_dim =
      pdf_to_images world pdf_path out_dir dpi quality start end_ "jpg" overwrite
        filename_template password grayscale max_dim ∧
    normFmt "jpeg" = "jpg" :=
  ⟨rfl, rfl⟩

theorem ensure_outdir_files (fs : FS) (out : String) :
    (ensure_outdir fs out).files = fs.files := by
  unfold ensure_outdir
  split <;> rfl

theorem ensure_outdir_contains (fs : FS) (out : String) :
    (ensure_outdir fs out).dirs.contains out = true := by
  unfold ensure_outdir
  by_cases h : fs.dirs.contains out
  · rw [if_pos h]
    exact h
  · rw [if_neg h]
    simp

theorem core_after_validation (world : World) (pdf_path : String) (out_dir : Option String)
    (dpi quality : Int) (start end_ : Option Int) (fmt : String) (overwrite : Bool)
    (tpl : String → Nat → String) (password : Option String) (grayscale : Bool)
    (max_dim : Option Int) (doc : Doc)
    (hfv : VALID_FORMATS.contains fmt = true)
    (hd : 0 < dpi)
    (hqc : ¬((fmt = "jpg" ∨ fmt = "webp") ∧ ¬(1 ≤ quality ∧ quality ≤ 100)))
    (hl : world.pdfs.lookup pdf_path = some doc) :
    pdf_to_images_core world pdf_path out_dir dpi quality start end_ fmt overwrite
        tpl password grayscale max_dim =
      (match checkAuth doc password with
       | some e => (Except.error e, ensure_outdir world.fs (resolveOutDir pdf_path out_dir))
       | none =>
          match validate_range start end_ (doc.nPages : Int) with
          | Except.error msg =>
              (Except.error (PdfErr.valueError msg),
                ensure_outdir world.fs (resolveOutDir pdf_path out_dir))
          | Except.ok (first, last) =>
              (Except.ok (resolveOutDir pdf_path out_dir),
                { ensure_outdir world.fs (resolveOutDir pdf_path out_dir) with
                  files := (pageIndices first last).foldl
                    (writePage ⟨doc, dpi, fmt, quality, overwrite,
                      resolveOutDir pdf_path out_dir, tpl, pathStem pdf_path,
                      grayscale, max_dim⟩)
                    (ensure_outdir world.fs (resolveOutDir pdf_path out_dir)).files })) := by
  unfold pdf_to_images_core
  rw [if_neg (by rw [hfv]; decide), if_neg (by omega), if_neg hqc, hl]

/-- Claim C4: for a password-protected document with an otherwise valid
request, an absent (or empty) password fails with the "encrypted" permission
error and a supplied-but-rejected password fails with the distinct "incorrect
password" permission error; in both cases the result is independent of the
page range and no file is written (only the output directory is created). -/
theorem password_errors_spec (world : World) (pdf_path : String) (out_dir : Option String)
    (dpi quality : Int) (start end_ : Option Int) (fmt : String) (overwrite : Bool)
    (tpl : String → Nat → String) (password : Option String) (grayscale : Bool)
    (max_dim : Option Int) (doc : Doc)
    (hl : world.pdfs.lookup pdf_path = some doc)
    (hfv : VALID_FORMATS.contains (normFmt fmt) = true)
    (hd : 0 < dpi)
    (hq : 1 ≤ quality ∧ quality ≤ 100)
    (hnp : doc.needsPass = true) :
    (passTruthy password = false →
      pdf_to_images world pdf_path out_dir dpi quality start end_ fmt overwrite tpl
          password grayscale max_dim =
        (Except.error (PdfErr.permissionError "PDF is encrypted. Provide --password."),
          ensure_outdir world.fs (resolveOutDir pdf_path out_dir))) ∧
    (passTruthy password = true → doc.auth (password.getD "") = false →
      pdf_to_images world pdf_path out_dir dpi quality start end_ fmt overwrite tpl
          password grayscale max_dim =
        (Except.error (PdfErr.permissionError "Incorrect PDF password."),
          ensure_outdir world.fs (resolveOutDir pdf_path out_dir))) ∧
    PdfErr.permissionError "PDF is encrypted. Provide --password." ≠
      PdfErr.permissionError "Incorrect PDF password." ∧
    (ensure_outdir world.fs (resolveOutDir pdf_path out_dir)).files = world.fs.files := by
  refine ⟨?_, ?_, by decide, ensure_outdir_files _ _⟩
  · intro hpw
    unfold pdf_to_images
    rw [core_after_validation world pdf_path out_dir dpi quality start end_ (normFmt fmt)
      overwrite tpl password grayscale max_dim doc hfv hd (fun hc => hc.2 hq) hl]
    have hca : checkAuth doc password =
        some (PdfErr.permissionError "PDF is encrypted. Provide --password.") := by
      unfold checkAuth
      rw [hnp, if_pos rfl, if_pos hpw]
    rw [hca]
  · intro hpw hauth
    unfold pdf_to_images
    rw [core_after_validation world pdf_path out_dir dpi quality start end_ (normFmt fmt)
      overwrite tpl password grayscale max_dim doc hfv hd (fun hc => hc.2 hq) hl]
    have hca : checkAuth doc password =
        some (PdfErr.permissionError "Incorrect PDF password.") := by
      unfold checkAuth
      rw [hnp, if_pos rfl, if_neg (by rw [hpw]; decide), if_pos hauth]
    rw [hca]

def c4doc : Doc :=
  ⟨true, fun s => s == "secret", 3, fun _ _ => Img.mk Mode.RGB 1 1 [[0, 0, 0]]⟩

def c4world : World := ⟨[("a.pdf", c4doc)], ⟨[], []⟩⟩

/-- Claim C4 witness: a concrete encrypted document with no password. -/
theorem password_errors_spec_witness :
    pdf_to_images c4world "a.pdf" none 200 90 none none "jpg" true
        (fun s n => s ++ toString n) none false none =
      (Except.error (PdfErr.permissionError "PDF is encrypted. Provide --password."),
        ensure_outdir c4world.fs (resolveOutDir "a.pdf" none)) :=
  (password_errors_spec c4world "a.pdf" none 200 90 none none "jpg" true
    (fun s n => s ++ toString n) none false none c4doc rfl rfl (by omega)
    (by omega) rfl).1 rfl

/-- Claim C9: once format, dpi and quality validation passes and the input file
exists, the output directory is created (idempotently) before the document is
opened, so it exists after the run regardless of outcome; and every failing run
past that point (permission or range error) writes no file. -/
theorem outdir_created_spec (world : World) (pdf_path : String) (out_dir : Option String)
    (dpi quality : Int) (start end_ : Option Int) (fmt : String) (overwrite : Bool)
    (tpl : String → Nat → String) (password : Option String) (grayscale : Bool)
    (max_dim : Option Int) (doc : Doc)
    (hl : world.pdfs.lookup pdf_path = some doc)
    (hfv : VALID_FORMATS.contains (normFmt fmt) = true)
    (hd : 0 < dpi)
    (hq : 1 ≤ quality ∧ quality ≤ 100) :
    ((pdf_to_images world pdf_path out_dir dpi quality start end_ fmt overwrite tpl
        password grayscale max_dim).2.dirs.contains (resolveOutDir pdf_path out_dir)
      = true) ∧
    (∀ e, (pdf_to_images world pdf_path out_dir dpi quality start end_ fmt overwrite tpl
        password grayscale max_dim).1 = Except.error e →
      (pdf_to_images world pdf_path out_dir dpi quality start end_ fmt overwrite tpl
        password grayscale max_dim).2.files = world.fs.files) := by
  unfold pdf_to_images
  rw [core_after_validation world pdf_path out_dir dpi quality start end_ (normFmt fmt)
    overwrite tpl password grayscale max_dim doc hfv hd (fun hc => hc.2 hq) hl]
  rcases checkAuth doc password with _ | e
  · rcases validate_range start end_ (doc.nPages : Int) with m | fl
    · exact ⟨ensure_outdir_contains _ _, fun e h => ensure_outdir_files _ _⟩
    · rcases fl with ⟨first, last⟩
      refine ⟨ensure_outdir_contains _ _, ?_⟩
      intro e h
      simp at h
  · exact ⟨ensure_outdir_contains _ _, fun e2 h => ensure_outdir_files _ _⟩

def c9doc : Doc :=
  ⟨true, fun s => s == "pw", 2, fun _ _ => Img.mk Mode.RGB 1 1 [[0, 0, 0]]⟩

def c9world : World := ⟨[("b.pdf", c9doc)], ⟨[], []⟩⟩

/-- Claim C9 witness: a failing (encrypted, no password) run still leaves the
output directory existing, with no file written. -/
theorem outdir_created_spec_witness :
    ((pdf_to_images c9world "b.pdf" none 200 90 none none "png" true
        (fun s _ => s) none false none).2.dirs.contains (resolveOutDir "b.pdf" none)
      = true) ∧
    (pdf_to_images c9world "b.pdf" none 200 90 none none "png" true
        (fun s _ => s) none false none).2.files = c9world.fs.files :=
  ⟨(outdir_created_spec c9world "b.pdf" none 200 90 none none "png" true
      (fun s _ => s) none false none c9doc rfl rfl (by omega) (by omega)).1,
    (outdir_created_spec c9world "b.pdf" none 200 90 none none "png" true
      (fun s _ => s) none false none c9doc rfl rfl (by omega) (by omega)).2
      (PdfErr.permissionError "PDF is encrypted. Provide --password.") rfl⟩

theorem core_bad_quality (world : World) (pdf_path : String) (out_dir : Option String)
    (dpi quality : Int) (start end_ : Option Int) (fmt : String) (overwrite : Bool)
    (tpl : String → Nat → String) (password : Option String) (grayscale : Bool)
    (max_dim : Option Int)
    (hfv : VALID_FORMATS.contains fmt = true)
    (hjw : fmt = "jpg" ∨ fmt = "webp")
    (hq : quality < 1 ∨ 100 < quality) :
    (∃ msg, (pdf_to_images_core world pdf_path out_dir dpi quality start end_ fmt
        overwrite tpl password grayscale max_dim).1 =
      Except.error (PdfErr.valueError msg)) ∧
    (pdf_to_images_core world pdf_path out_dir dpi quality start end_ fmt overwrite
        tpl password grayscale max_dim).2 = world.fs := by
  unfold pdf_to_images_core
  rw [if_neg (by rw [hfv]; decide)]
  by_cases hdpi : dpi ≤ 0
  · rw [if_pos hdpi]
    exact ⟨⟨_, rfl⟩, rfl⟩
  · rw [if_neg hdpi, if_pos ⟨hjw, by omega⟩]
    exact ⟨⟨_, rfl⟩, rfl⟩

theorem encode_png (quality : Int) (img : Img) :
    encode "png" quality img = FileData.pngData img := by
  unfold encode
  rw [if_neg (by decide), if_pos rfl]

theorem foldl_ext_fun {α β : Type} (f g : β → α → β) (b : β) (l : List α)
    (h : ∀ x y, f x y = g x y) : l.foldl f b = l.foldl g b := by
  induction l generalizing b with
  | nil => rfl
  | cons a as ih =>
      simp only [List.foldl]
      rw [h]
      exact ih _

theorem writePage_png_quality (doc : Doc) (dpi q1 q2 : Int) (ow : Bool) (out : String)
    (tpl : String → Nat → String) (stem : String) (gs : Bool) (md : Option Int)
    (files : List (String × FileData)) (i : Nat) :
    writePage ⟨doc, dpi, "png", q1, ow, out, tpl, stem, gs, md⟩ files i =
      writePage ⟨doc, dpi, "png", q2, ow, out, tpl, stem, gs, md⟩ files i := by
  simp only [writePage, pageOutFile]
  rw [encode_png, encode_png]

theorem core_png_quality (world : World) (pdf_path : String) (out_dir : Option String)
    (dpi : Int) (start end_ : Option Int) (overwrite : Bool)
    (tpl : String → Nat → String) (password : Option String) (grayscale : Bool)
    (max_dim : Option Int) (q1 q2 : Int) :
    pdf_to_images_core world pdf_path out_dir dpi q1 start end_ "png" overwrite tpl
        password grayscale max_dim =
      pdf_to_images_core world pdf_path out_dir dpi q2 start end_ "png" overwrite tpl
        password grayscale max_dim := by
  have hc1 : ¬((("png" = "jpg") ∨ ("png" = "webp")) ∧ ¬(1 ≤ q1 ∧ q1 ≤ 100)) := by
    rintro ⟨hor, -⟩
    rcases hor with h | h <;> exact absurd h (by decide)
  have hc2 : ¬((("png" = "jpg") ∨ ("png" = "webp")) ∧ ¬(1 ≤ q2 ∧ q2 ≤ 100)) := by
    rintro ⟨hor, -⟩
    rcases hor with h | h <;> exact absurd h (by decide)
  by_cases hdpi : dpi ≤ 0
  · unfold pdf_to_images_core
    rw [if_neg (show ¬(VALID_FORMATS.contains "png" = false) by decide),
      if_neg (show ¬(VALID_FORMATS.contains "png" = false) by decide),
      if_pos hdpi, if_pos hdpi]
  · rcases hlk : world.pdfs.lookup pdf_path with _ | doc
    · unfold pdf_to_images_core
      rw [if_neg (show ¬(VALID_FORMATS.contains "png" = false) by decide),
        if_neg (show ¬(VALID_FORMATS.contains "png" = false) by decide),
        if_neg hdpi, if_neg hdpi, if_neg hc1, if_neg hc2, hlk]
    · rw [core_after_validation world pdf_path out_dir dpi q1 start end_ "png" overwrite
        tpl password grayscale max_dim doc rfl (by omega) hc1 hlk,
        core_after_validation world pdf_path out_dir dpi q2 start end_ "png" overwrite
        tpl password grayscale max_dim doc rfl (by omega) hc2 hlk]
      rcases checkAuth doc password with _ | e
      · rcases validate_range start end_ (doc.nPages : Int) with m | fl
        · rfl
        · rcases fl with ⟨first, last⟩
          have hfold := foldl_ext_fun
            (writePage ⟨doc, dpi, "png", q1, overwrite, resolveOutDir pdf_path out_dir,
              tpl, pathStem pdf_path, grayscale, max_dim⟩)
            (writePage ⟨doc, dpi, "png", q2, overwrite, resolveOutDir pdf_path out_dir,
              tpl, pathStem pdf_path, grayscale, max_dim⟩)
            (ensure_outdir world.fs (resolveOutDir pdf_path out_dir)).files
            (pageIndices first last)
            (fun files i => writePage_png_quality doc dpi q1 q2 overwrite
              (resolveOutDir pdf_path out_dir) tpl (pathStem pdf_path) grayscale
              max_dim files i)
          exact congrArg (fun fl =>
            ((Except.ok (resolveOutDir pdf_path out_dir) : Except PdfErr String),
              ({ files := fl,
                 dirs := (ensure_outdir world.fs (resolveOutDir pdf_path out_dir)).dirs } :
                FS))) hfold
      · rfl

/-- Claim C3: for jpg and webp targets every quality outside [1, 100] makes the
run fail with a validation error before the document is opened and before any
filesystem effect, while for png the entire run is independent of the quality
value (quality is accepted and ignored). -/
theorem quality_validation_spec :
    (∀ (world : World) (pdf_path : String) (out_dir : Option String)
        (dpi quality : Int) (start end_ : Option Int) (fmt : String) (overwrite : Bool)
        (tpl : String → Nat → String) (password : Option String) (grayscale : Bool)
        (max_dim : Option Int),
      (normFmt fmt = "jpg" ∨ normFmt fmt = "webp") →
      (quality < 1 ∨ 100 < quality) →
      (∃ msg, (pdf_to_images world pdf_path out_dir dpi quality start end_ fmt overwrite
          tpl password grayscale max_dim).1 = Except.error (PdfErr.valueError msg)) ∧
      (pdf_to_images world pdf_path out_dir dpi quality start end_ fmt overwrite tpl
          password grayscale max_dim).2 = world.fs) ∧
    (∀ (world : World) (pdf_path : String) (out_dir : Option String) (dpi : Int)
        (start end_ : Option Int) (fmt : String) (overwrite : Bool)
        (tpl : String → Nat → String) (password : Option String) (grayscale : Bool)
        (max_dim : Option Int),
      normFmt fmt = "png" →
      ∀ q1 q2 : Int,
        pdf_to_images world pdf_path out_dir dpi q1 start end_ fmt overwrite tpl
            password grayscale max_dim =
          pdf_to_images world pdf_path out_dir dpi q2 start end_ fmt overwrite tpl
            password grayscale max_dim) := by
  constructor
  · intro world pdf_path out_dir dpi quality start end_ fmt overwrite tpl password
      grayscale max_dim hf hq
    unfold pdf_to_images
    exact core_bad_quality world pdf_path out_dir dpi quality start end_ (normFmt fmt)
      overwrite tpl password grayscale max_dim
      (by rcases hf with h | h <;> rw [h] <;> decide) hf hq
  · intro world pdf_path out_dir dpi start end_ fmt overwrite tpl password grayscale
      max_dim hf q1 q2
    unfold pdf_to_images
    rw [hf]
    exact core_png_quality world pdf_path out_dir dpi start end_ overwrite tpl password
      grayscale max_dim q1 q2

def c3doc : Doc :=
  ⟨false, fun _ => true, 2, fun _ _ => Img.mk Mode.RGB 1 1 [[1, 1, 1]]⟩

def c3world : World := ⟨[("c.pdf", c3doc)], ⟨[], []⟩⟩

/-- Claim C3 witness: quality 150 with jpg leaves the filesystem untouched, and
a png run gives identical results for quality 0 and quality 77. -/
theorem quality_validation_spec_witness :
    (pdf_to_images c3world "c.pdf" none 300 150 none none "jpg" true (fun s _ => s)
        none false none).2 = c3world.fs ∧
    pdf_to_images c3world "c.pdf" none 300 0 none none "png" true (fun s _ => s)
        none false none =
      pdf_to_images c3world "c.pdf" none 300 77 none none "png" true (fun s _ => s)
        none false none :=
  ⟨(quality_validation_spec.1 c3world "c.pdf" none 300 150 none none "jpg" true
      (fun s _ => s) none false none (Or.inl rfl) (by omega)).2,
    quality_validation_spec.2 c3world "c.pdf" none 300 none none "png" true
      (fun s _ => s) none false none rfl 0 77⟩

theorem lookup_fsWriteFiles_self (files : List (String × FileData)) (path : String)
    (d : FileData) : (fsWriteFiles files path d).lookup path = some d := by
  unfold fsWriteFiles
  exact List.lookup_cons_self

theorem lookup_filter_ne (files : List (String × FileData)) (path q : String)
    (h : q ≠ path) :
    (files.filter (fun e => e.1 != path)).lookup q = files.lookup q := by
  induction files with
  | nil => rfl
  | cons e es ih =>
      rcases e with ⟨k, v⟩
      by_cases hk : k = path
      · have h1 : ((k, v).1 != path) = false := by simp [hk]
        rw [List.filter_cons, h1]
        simp only [Bool.false_eq_true, if_false]
        rw [List.lookup_cons]
        cases hkq : q == k
        · exact ih
        · exact absurd (eq_of_beq hkq) (fun hqk => h (hqk.trans hk))
      · have h1 : ((k, v).1 != path) = true := by simp [hk]
        rw [List.filter_cons, h1]
        simp only [if_true]
        rw [List.lookup_cons, List.lookup_cons]
        cases hkq : q == k
        · exact ih
        · rfl

theorem lookup_fsWriteFiles_ne (files : List (String × FileData)) (path q : String)
    (d : FileData) (h : q ≠ path) :
    (fsWriteFiles files path d).lookup q = files.lookup q := by
  unfold fsWriteFiles
  rw [List.lookup_cons]
  cases hqp : q == path
  · exact lookup_filter_ne files path q h
  · exact absurd (eq_of_beq hqp) h

theorem foldl_writePage_preserves (ctx : PageCtx) (how : ctx.overwrite = false)
    (pages : List Nat) (files : List (String × FileData)) (path : String) (d : FileData)
    (h : files.lookup path = some d) :
    (pages.foldl (writePage ctx) files).lookup path = some d := by
  induction pages generalizing files with
  | nil => exact h
  | cons i is ih =>
      simp only [List.foldl]
      apply ih
      simp only [writePage, how, Bool.not_false, Bool.and_true]
      by_cases hex : (files.lookup (pageOutFile ctx i)).isSome
      · rw [if_pos hex]
        exact h
      · rw [if_neg hex]
        have hne : path ≠ pageOutFile ctx i := by
          intro hh
          rw [← hh, h] at hex
          exact hex rfl
        rw [lookup_fsWriteFiles_ne _ _ _ _ hne]
        exact h

/-- Claim C5: the overwrite policy of the writer.  With overwrite disabled, a
page whose resolved output path already exists is skipped entirely (no error,
no change) and every pre-existing file's contents survive the whole run
unchanged; with overwrite enabled the target path ends up holding the freshly
encoded page. -/
theorem overwrite_policy_spec :
    (∀ (ctx : PageCtx) (files : List (String × FileData)) (i : Nat),
      ctx.overwrite = false →
      (files.lookup (pageOutFile ctx i)).isSome = true →
      writePage ctx files i = files) ∧
    (∀ (ctx : PageCtx) (files : List (String × FileData)) (i : Nat),
      ctx.overwrite = true →
      (writePage ctx files i).lookup (pageOutFile ctx i) =
        some (encode ctx.fmt ctx.quality
          (transform_chain ctx.fmt ctx.grayscale ctx.max_dim (ctx.doc.render ctx.dpi i)))) ∧
    (∀ (world : World) (pdf_path : String) (out_dir : Option String) (dpi quality : Int)
        (start end_ : Option Int) (fmt : String) (tpl : String → Nat → String)
        (password : Option String) (grayscale : Bool) (max_dim : Option Int)
        (path : String) (d : FileData),
      world.fs.files.lookup path = some d →
      (pdf_to_images world pdf_path out_dir dpi quality start end_ fmt false tpl password
          grayscale max_dim).2.files.lookup path = some d) := by
  refine ⟨?_, ?_, ?_⟩
  · intro ctx files i how hex
    simp only [writePage, how, Bool.not_false, Bool.and_true]
    rw [if_pos hex]
  · intro ctx files i how
    simp only [writePage, how, Bool.not_true, Bool.and_false, Bool.false_eq_true,
      if_false]
    exact lookup_fsWriteFiles_self _ _ _
  · intro world pdf_path out_dir dpi quality start end_ fmt tpl password grayscale
      max_dim path d h
    unfold pdf_to_images pdf_to_images_core
    by_cases h1 : VALID_FORMATS.contains (normFmt fmt) = false
    · rw [if_pos h1]
      exact h
    · rw [if_neg h1]
      by_cases h2 : dpi ≤ 0
      · rw [if_pos h2]
        exact h
      · rw [if_neg h2]
        by_cases h3 : ((normFmt fmt = "jpg" ∨ normFmt fmt = "webp") ∧
            ¬(1 ≤ quality ∧ quality ≤ 100))
        · rw [if_pos h3]
          exact h
        · rw [if_neg h3]
          rcases hlk : world.pdfs.lookup pdf_path with _ | doc
          · exact h
          · have hcore := core_after_validation world pdf_path out_dir dpi quality start
              end_ (normFmt fmt) false tpl password grayscale max_dim doc
              (by cases hfc : VALID_FORMATS.contains (normFmt fmt) with
                  | true => rfl
                  | false => exact absurd hfc h1)
              (by omega) h3 hlk
            unfold pdf_to_images_core at hcore
            rw [if_neg h1, if_neg h2, if_neg h3, hlk] at hcore
            rw [hcore]
            rcases checkAuth doc password with _ | e
            · rcases validate_range start end_ (doc.nPages : Int) with m | fl
              · rw [ensure_outdir_files]
                exact h
              · rcases fl with ⟨first, last⟩
                apply foldl_writePage_preserves _ rfl
                rw [ensure_outdir_files]
                exact h
            · rw [ensure_outdir_files]
              exact h

def c5doc : Doc :=
  ⟨false, fun _ => true, 1, fun _ _ => Img.mk Mode.RGB 1 1 [[5, 6, 7]]⟩

def c5ctx : PageCtx :=
  ⟨c5doc, 200, "png", 90, false, "out", fun s n => s ++ "_p" ++ toString n, "a",
    false, none⟩

def c5files : List (String × FileData) :=
  [("out/a_p1.png", FileData.pngData (Img.mk Mode.RGB 1 1 [[9, 9, 9]]))]

/-- Claim C5 witness: with overwrite disabled an existing target is skipped and
left unchanged; with overwrite enabled the target holds the new encoding. -/
theorem overwrite_policy_spec_witness :
    writePage c5ctx c5files 0 = c5files ∧
    (writePage { c5ctx with overwrite := true } c5files 0).lookup
        (pageOutFile { c5ctx with overwrite := true } 0) =
      some (encode "png" 90 (transform_chain "png" false none (c5doc.render 200 0))) :=
  ⟨overwrite_policy_spec.1 c5ctx c5files 0 rfl (by decide),
    overwrite_policy_spec.2.1 { c5ctx with overwrite := true } c5files 0 rfl⟩
